import Mathlib

/-!
Verification of the skill-exchange application (exchange-craft-space).

The development shallowly embeds the parts of the code the claims are
about:

* the relational schema and row-level policies of the SQL migration
  (tables `profiles`, `skills`, `user_skills`, `swap_requests`,
  `feedback`, with their CHECK and UNIQUE constraints and RLS
  predicates);
* the client-side functions of the page components
  (`updateRequestStatus` and `deleteRequest` of SwapRequestsPage,
  `searchUsers` of SearchPage, `addSkill` of SkillsPage,
  `fetchAcceptedSwaps` / `pendingFeedback` / `submitFeedback` of
  FeedbackPage).

UUIDs are modelled as `Nat`, timestamps are omitted (no claim depends
on them), and the hosted backend's reaction to a statement is modelled
as the effect that the RLS predicates and table constraints dictate on
the stored rows: rows filtered out by a policy's USING clause are
invisible to an UPDATE/DELETE and stay unchanged, and an INSERT that
violates a CHECK, UNIQUE or WITH CHECK condition fails leaving the
table unchanged.  Exogenous transport failures of a backend call are
modelled by an injected boolean per call.
-/

namespace ExchangeCraft

/-- Status of a swap request: CHECK (status IN ('pending','accepted','rejected')),
DEFAULT 'pending'. -/
inductive Status where
  | pending
  | accepted
  | rejected
deriving DecidableEq, Repr

/-- Type tag of a user_skills row: CHECK (skill_type IN ('offered','wanted')). -/
inductive SkillType where
  | offered
  | wanted
deriving DecidableEq, Repr

/-- A row of `public.profiles`. -/
structure Profile where
  id : Nat
  user_id : Nat
  display_name : String
  location : String
  avatar_url : String
  availability : String
  is_public : Bool
deriving DecidableEq, Repr

/-- A row of `public.skills` (name TEXT NOT NULL UNIQUE). -/
structure Skill where
  id : Nat
  name : String
  category : String
  is_approved : Bool
deriving DecidableEq, Repr

/-- A row of `public.user_skills` (UNIQUE(user_id, skill_id, skill_type)). -/
structure UserSkill where
  id : Nat
  user_id : Nat
  skill_id : Nat
  skill_type : SkillType
deriving DecidableEq, Repr

/-- A row of `public.swap_requests`. -/
structure SwapRequest where
  id : Nat
  requester_id : Nat
  recipient_id : Nat
  offered_skill_id : Nat
  wanted_skill_id : Nat
  message : String
  status : Status
deriving DecidableEq, Repr

/-- A row of `public.feedback` (UNIQUE(swap_request_id, reviewer_id),
CHECK (rating >= 1 AND rating <= 5)). -/
structure Feedback where
  id : Nat
  swap_request_id : Nat
  reviewer_id : Nat
  reviewee_id : Nat
  rating : Nat
  comment : String
deriving DecidableEq, Repr

/-- The stored database state: the five tables of the migration. -/
structure DB where
  profiles : List Profile
  skills : List Skill
  user_skills : List UserSkill
  swap_requests : List SwapRequest
  feedback : List Feedback
deriving DecidableEq, Repr

/-! ## Row-level policies on swap_requests -/

/-- Policy "Users can update swap requests they're involved in":
USING (auth.uid() = requester_id OR auth.uid() = recipient_id). -/
def swapUpdatePolicy (uid : Nat) (r : SwapRequest) : Bool :=
  uid == r.requester_id || uid == r.recipient_id

/-- Policy "Users can delete their own pending requests":
USING (auth.uid() = requester_id AND status = 'pending'). -/
def swapDeletePolicy (uid : Nat) (r : SwapRequest) : Bool :=
  uid == r.requester_id && r.status == Status.pending

/-- Backend effect of `supabase.from('swap_requests').update({status}).eq('id', reqId)`
issued by user `uid` (SwapRequestsPage.updateRequestStatus): every stored row whose
id matches and which the UPDATE policy makes visible gets the new status; rows the
policy filters out are untouched. -/
def updateSwapStatus (db : DB) (uid reqId : Nat) (st : Status) : DB :=
  { db with swap_requests := db.swap_requests.map fun r =>
      if r.id == reqId && swapUpdatePolicy uid r then { r with status := st } else r }

/-- Backend effect of `supabase.from('swap_requests').delete().eq('id', reqId)`
issued by user `uid` (SwapRequestsPage.deleteRequest): only rows whose id matches
and which the DELETE policy makes visible are removed. -/
def deleteSwapRequest (db : DB) (uid reqId : Nat) : DB :=
  { db with swap_requests := db.swap_requests.filter fun r =>
      !(r.id == reqId && swapDeletePolicy uid r) }

/-! ## String primitives

`String.toLowerCase`, `String.trim` and the backend's `ilike` matching are
modelled executably over the character list of the string. -/

/-- Lower-cases one ASCII character (JS toLowerCase / SQL ilike folding on the
ASCII names stored by the app). -/
def lowerChar (c : Char) : Char :=
  if c.isUpper then Char.ofNat (c.toNat + 32) else c

/-- Character list of a string, lower-cased. -/
def lowerStr (s : String) : List Char := s.toList.map lowerChar

/-- Does `pat` occur as a contiguous run inside `l`? -/
def charsWithin (pat l : List Char) : Bool :=
  match l with
  | [] => pat.isEmpty
  | _ :: t => List.isPrefixOf pat l || charsWithin pat t

/-- The backend filter ilike('name', '%searchTerm%'): case-insensitive
substring match of the term against a skill name. -/
def ilikeContains (name term : String) : Bool :=
  charsWithin (lowerStr term) (lowerStr name)

/-- JS falsiness of s.trim(): the string is empty or all whitespace. -/
def isBlank (s : String) : Bool := s.toList.all Char.isWhitespace

/-- JS s.trim(): leading and trailing whitespace removed. -/
def strTrim (s : String) : String :=
  ⟨((s.toList.dropWhile Char.isWhitespace).reverse.dropWhile
      Char.isWhitespace).reverse⟩

/-- Backend effect of an INSERT into `feedback` by user `uid`:
RLS policy "Users can create feedback" WITH CHECK (auth.uid() = reviewer_id),
CHECK (rating >= 1 AND rating <= 5), and UNIQUE(swap_request_id, reviewer_id).
A violated condition fails the statement and leaves the table unchanged. -/
def insertFeedback (db : DB) (uid : Nat) (f : Feedback) : Except String DB :=
  if uid != f.reviewer_id then
    .error "new row violates row-level security policy"
  else if !(1 ≤ f.rating && f.rating ≤ 5) then
    .error "new row violates check constraint"
  else if db.feedback.any fun g =>
      g.swap_request_id == f.swap_request_id && g.reviewer_id == f.reviewer_id then
    .error "duplicate key value violates unique constraint"
  else
    .ok { db with feedback := db.feedback ++ [f] }

/-- FeedbackPage.submitFeedback: when the form carries a rating and a reviewee
the client inserts exactly one feedback row with reviewer_id set to the current
user; with an incomplete form it only shows a validation toast and issues no
backend call (`newId` stands for the generated primary key). -/
def submitFeedback (db : DB) (uid newId swapRequestId : Nat)
    (revieweeId : Option Nat) (rating : Option Nat) (comment : String) :
    Except String DB :=
  match rating, revieweeId with
  | some rt, some rev =>
      insertFeedback db uid ⟨newId, swapRequestId, uid, rev, rt, comment⟩
  | _, _ => .ok db

/-- The boolean guard of `updateSwapStatus` as a proposition. -/
lemma swapUpdate_cond_iff (uid reqId : Nat) (r : SwapRequest) :
    (r.id == reqId && swapUpdatePolicy uid r) = true ↔
      (r.id = reqId ∧ (uid = r.requester_id ∨ uid = r.recipient_id)) := by
  simp [swapUpdatePolicy]

/-- Claim C1 (amended).  Effect of a status-update attempt on each stored row:
a row is rewritten to the new status exactly when its id matches and the acting
user is the requester or the recipient; every other row — in particular every
row targeted by a user who is neither requester nor recipient — is unchanged.
The stored current status is NOT consulted: the UPDATE policy of the migration
checks only participation, so a participant's update goes through even when the
row is already accepted or rejected. -/
theorem updateSwapStatus_row_effect (db : DB) (uid reqId : Nat) (st : Status)
    (i : Nat) (r : SwapRequest) (h : db.swap_requests[i]? = some r) :
    (updateSwapStatus db uid reqId st).swap_requests[i]? =
      some (if r.id = reqId ∧ (uid = r.requester_id ∨ uid = r.recipient_id)
            then { r with status := st } else r) := by
  simp only [updateSwapStatus, List.getElem?_map, h, Option.map_some']
  rcases Decidable.em (r.id = reqId ∧ (uid = r.requester_id ∨ uid = r.recipient_id)) with hc | hc
  · rw [if_pos ((swapUpdate_cond_iff uid reqId r).mpr hc), if_pos hc]
  · rw [if_neg (fun hb => hc ((swapUpdate_cond_iff uid reqId r).mp hb)), if_neg hc]

/-- Concrete instance of `updateSwapStatus_row_effect`: the recipient (user 20)
accepts the pending request 1 and the stored row's status becomes accepted. -/
theorem updateSwapStatus_row_effect_witness :
    (updateSwapStatus ⟨[], [], [], [⟨1, 10, 20, 100, 101, "m", Status.pending⟩], []⟩
        20 1 Status.accepted).swap_requests[0]? =
      some ⟨1, 10, 20, 100, 101, "m", Status.accepted⟩ := by
  have h := updateSwapStatus_row_effect
    ⟨[], [], [], [⟨1, 10, 20, 100, 101, "m", Status.pending⟩], []⟩
    20 1 Status.accepted 0 ⟨1, 10, 20, 100, 101, "m", Status.pending⟩ rfl
  rw [h]
  decide

/-- Claim C1 is false as stated: a status-update attempt on a request whose
status is already accepted is not rejected — issued by the recipient, it
changes the stored status (here accepted becomes rejected), because the UPDATE
policy checks only that the actor is requester or recipient. -/
theorem terminal_status_update_goes_through :
    ((⟨[], [], [], [⟨1, 10, 20, 100, 101, "m", Status.accepted⟩], []⟩ : DB).swap_requests.map
        SwapRequest.status = [Status.accepted]) ∧
    ((updateSwapStatus ⟨[], [], [], [⟨1, 10, 20, 100, 101, "m", Status.accepted⟩], []⟩
        20 1 Status.rejected).swap_requests.map SwapRequest.status = [Status.rejected]) := by
  decide

/-- Claim C2.  A stored swap-request row survives a delete attempt exactly when
the attempt does not satisfy the DELETE policy: the row is removed iff its id is
the targeted one, the acting user is the requester, and the status is pending;
a delete attempted by the recipient, by a non-participant, or on an accepted or
rejected request leaves the row in place. -/
theorem deleteSwapRequest_requester_pending_iff (db : DB) (uid reqId : Nat)
    (r : SwapRequest) (hr : r ∈ db.swap_requests) :
    r ∈ (deleteSwapRequest db uid reqId).swap_requests ↔
      ¬(r.id = reqId ∧ uid = r.requester_id ∧ r.status = Status.pending) := by
  simp only [deleteSwapRequest, List.mem_filter, hr, true_and, Bool.not_eq_true',
    Bool.and_eq_true, beq_iff_eq, swapDeletePolicy]
  constructor
  · intro hb hc
    rw [hc.1, hc.2.1, hc.2.2] at hb
    simp at hb
  · intro hc
    rcases Decidable.em (r.id = reqId) with h1 | h1
    · rcases Decidable.em (uid = r.requester_id) with h2 | h2
      · rcases Decidable.em (r.status = Status.pending) with h3 | h3
        · exact absurd ⟨h1, h2, h3⟩ hc
        · simp [h1, h2, h3]
      · simp [h1, h2]
    · simp [h1]

/-- Concrete instance of `deleteSwapRequest_requester_pending_iff`: the
requester (user 10) deletes their own pending request and the row is gone. -/
theorem deleteSwapRequest_requester_pending_iff_witness :
    (⟨1, 10, 20, 100, 101, "m", Status.pending⟩ : SwapRequest) ∉
      (deleteSwapRequest ⟨[], [], [], [⟨1, 10, 20, 100, 101, "m", Status.pending⟩], []⟩
        10 1).swap_requests := by
  intro hmem
  exact (deleteSwapRequest_requester_pending_iff
    ⟨[], [], [], [⟨1, 10, 20, 100, 101, "m", Status.pending⟩], []⟩
    10 1 ⟨1, 10, 20, 100, 101, "m", Status.pending⟩ (by decide)).mp hmem (by decide)

/-- Claim C3.  For an accepted swap and a participant `uid` with no prior
feedback for it, the first submission succeeds and appends exactly one feedback
row; afterwards exactly one row carries this (swap, reviewer) pair, and any
second submission by the same reviewer for the same swap fails the uniqueness
constraint, leaving that single row in place. -/
theorem submitFeedback_once_then_unique (db : DB) (uid : Nat) (s : SwapRequest)
    (hs : s ∈ db.swap_requests) (hacc : s.status = Status.accepted)
    (hpart : uid = s.requester_id ∨ uid = s.recipient_id)
    (hnone : ∀ f ∈ db.feedback, ¬(f.swap_request_id = s.id ∧ f.reviewer_id = uid))
    (newId rev rt : Nat) (c : String) (hrt : 1 ≤ rt ∧ rt ≤ 5) :
    ∃ db2,
      submitFeedback db uid newId s.id (some rev) (some rt) c = .ok db2 ∧
      db2.feedback = db.feedback ++ [⟨newId, s.id, uid, rev, rt, c⟩] ∧
      (db2.feedback.filter fun f =>
        f.swap_request_id == s.id && f.reviewer_id == uid).length = 1 ∧
      ∀ newId2 rev2 rt2 c2, 1 ≤ rt2 ∧ rt2 ≤ 5 →
        submitFeedback db2 uid newId2 s.id (some rev2) (some rt2) c2 =
          .error "duplicate key value violates unique constraint" := by
  have hany : ¬ (db.feedback.any fun g =>
      g.swap_request_id == s.id && g.reviewer_id == uid) = true := by
    rw [List.any_eq_true]
    rintro ⟨g, hg, hb⟩
    simp only [Bool.and_eq_true, beq_iff_eq] at hb
    exact hnone g hg hb
  have hanyf : (db.feedback.any fun g =>
      g.swap_request_id == s.id && g.reviewer_id == uid) = false :=
    Bool.eq_false_iff.mpr hany
  have hfiltold : (db.feedback.filter fun f =>
      f.swap_request_id == s.id && f.reviewer_id == uid) = [] := by
    rw [List.filter_eq_nil_iff]
    intro f hf
    simp only [Bool.and_eq_true, beq_iff_eq]
    exact fun hb => hnone f hf hb
  refine ⟨{ db with feedback := db.feedback ++ [⟨newId, s.id, uid, rev, rt, c⟩] },
    ?_, rfl, ?_, ?_⟩
  · simp [submitFeedback, insertFeedback, hrt.1, hrt.2, hanyf]
  · simp [List.filter_append, hfiltold]
  · intro newId2 rev2 rt2 c2 hrt2
    have hany2 : ((db.feedback ++ [(⟨newId, s.id, uid, rev, rt, c⟩ : Feedback)]).any fun g =>
        g.swap_request_id == s.id && g.reviewer_id == uid) = true := by
      rw [List.any_eq_true]
      refine ⟨(⟨newId, s.id, uid, rev, rt, c⟩ : Feedback), ?_, ?_⟩
      · simp
      · simp
    simp [submitFeedback, insertFeedback, hrt2.1, hrt2.2, hany2]

/-- Concrete instance of `submitFeedback_once_then_unique`: requester 10 of the
accepted swap 1 submits a 5-star review of recipient 20. -/
theorem submitFeedback_once_then_unique_witness :
    ∃ db2,
      submitFeedback ⟨[], [], [], [⟨1, 10, 20, 100, 101, "m", Status.accepted⟩], []⟩
          10 7 1 (some 20) (some 5) "great" = .ok db2 ∧
      db2.feedback = [] ++ [⟨7, 1, 10, 20, 5, "great"⟩] ∧
      (db2.feedback.filter fun f =>
        f.swap_request_id == 1 && f.reviewer_id == 10).length = 1 ∧
      ∀ newId2 rev2 rt2 c2, 1 ≤ rt2 ∧ rt2 ≤ 5 →
        submitFeedback db2 10 newId2 1 (some rev2) (some rt2) c2 =
          .error "duplicate key value violates unique constraint" :=
  submitFeedback_once_then_unique
    ⟨[], [], [], [⟨1, 10, 20, 100, 101, "m", Status.accepted⟩], []⟩
    10 ⟨1, 10, 20, 100, 101, "m", Status.accepted⟩ (by decide) rfl (Or.inl rfl)
    (by intro f hf; simp at hf) 7 20 5 "great" (by decide)

/-! ## SearchPage.searchUsers -/

/-- A skill as selected by the nested `skills (id, name)` queries. -/
structure SkillRef where
  id : Nat
  name : String
deriving DecidableEq, Repr

/-- The UserProfile view model assembled by SearchPage.searchUsers. -/
structure UserProfileVM where
  id : Nat
  user_id : Nat
  display_name : String
  location : String
  avatar_url : String
  availability : String
  offeredSkills : List SkillRef
deriving DecidableEq, Repr

/-- The view record seeded for a profile row (`userMap.set` branch of the
`data?.forEach` loop): profile fields copied, offeredSkills empty. -/
def profileVM (p : Profile) : UserProfileVM :=
  { id := p.id, user_id := p.user_id, display_name := p.display_name,
    location := p.location, avatar_url := p.avatar_url,
    availability := p.availability, offeredSkills := [] }

/-- One step of the `data?.forEach(profile => ...)` loop: a new map entry is
created only when no entry for this user_id exists yet. -/
def addProfileEntry (acc : List UserProfileVM) (p : Profile) : List UserProfileVM :=
  if acc.any fun v => v.user_id == p.user_id then acc else acc ++ [profileVM p]

/-- One step of the `allUserSkills?.forEach(userSkill => ...)` loop: the
nested skill (joined by FK) is appended to the matching user's entry unless an
entry with the same skill id is already there. -/
def addUserSkillEntry (db : DB) (acc : List UserProfileVM) (us : UserSkill) :
    List UserProfileVM :=
  match db.skills.find? fun s => s.id == us.skill_id with
  | none => acc
  | some sk => acc.map fun v =>
      if v.user_id == us.user_id && !(v.offeredSkills.any fun s => s.id == sk.id)
      then { v with offeredSkills := v.offeredSkills ++ [⟨sk.id, sk.name⟩] }
      else v

/-- The result-assembly stages of SearchPage.searchUsers, reached when the
term is not blank: (a) skills matching the term case-insensitively, (b) users
offering a matching skill, (c) their public profiles excluding the searcher,
(d) the full offered-skill sets of those users, (e) one deduplicated view
record per user.  An empty stage (a) or (b) short-circuits to []. -/
def assembleSearch (db : DB) (uid : Nat) (searchTerm : String) :
    List UserProfileVM :=
  let matchingSkills := db.skills.filter fun s => ilikeContains s.name searchTerm
  if matchingSkills.isEmpty then [] else
  let skillIds := matchingSkills.map Skill.id
  let userSkills := db.user_skills.filter fun us =>
    us.skill_type == SkillType.offered && skillIds.contains us.skill_id
  let userIds := (userSkills.map UserSkill.user_id).dedup
  if userIds.isEmpty then [] else
  let profs := db.profiles.filter fun p =>
    p.is_public == true && p.user_id != uid && userIds.contains p.user_id
  let allUserSkills := db.user_skills.filter fun us =>
    us.skill_type == SkillType.offered && userIds.contains us.user_id
  let base := profs.foldl addProfileEntry []
  allUserSkills.foldl (addUserSkillEntry db) base

/-- SearchPage.searchUsers as a transformer of the `users` state: the guard
`if (!searchTerm.trim()) return` leaves the previously displayed results in
place; otherwise the assembled result set replaces them. -/
def searchUsers (db : DB) (uid : Nat) (searchTerm : String)
    (prev : List UserProfileVM) : List UserProfileVM :=
  if isBlank searchTerm then prev else assembleSearch db uid searchTerm

/-- Every element left by the profile-seeding loop is either from the initial
accumulator or the seed record of one of the profile rows. -/
lemma mem_foldl_addProfileEntry (profs : List Profile) (acc : List UserProfileVM)
    (v : UserProfileVM) (hv : v ∈ profs.foldl addProfileEntry acc) :
    v ∈ acc ∨ ∃ p ∈ profs, v = profileVM p := by
  induction profs generalizing acc with
  | nil => exact Or.inl hv
  | cons p t ih =>
    simp only [List.foldl_cons] at hv
    rcases ih (addProfileEntry acc p) hv with h | ⟨q, hq, hvq⟩
    · unfold addProfileEntry at h
      split at h
      · exact Or.inl h
      · rcases List.mem_append.mp h with h | h
        · exact Or.inl h
        · exact Or.inr ⟨p, List.mem_cons_self p t, List.mem_singleton.mp h⟩
    · exact Or.inr ⟨q, List.mem_cons_of_mem p hq, hvq⟩

/-- Every element left by one step of the skill-attaching loop comes from an
accumulator element, either unchanged or with one skill appended whose id was
not yet among its offered skills. -/
lemma mem_addUserSkillEntry (db : DB) (acc : List UserProfileVM) (us : UserSkill)
    (v : UserProfileVM) (hv : v ∈ addUserSkillEntry db acc us) :
    ∃ w ∈ acc, v = w ∨ ∃ skr : SkillRef,
      (w.offeredSkills.any fun s => s.id == skr.id) = false ∧
      v = { w with offeredSkills := w.offeredSkills ++ [skr] } := by
  unfold addUserSkillEntry at hv
  rcases hfind : db.skills.find? fun s => s.id == us.skill_id with _ | sk
  · rw [hfind] at hv
    exact ⟨v, hv, Or.inl rfl⟩
  · rw [hfind] at hv
    rcases List.mem_map.mp hv with ⟨w, hw, hvw⟩
    refine ⟨w, hw, ?_⟩
    by_cases hc : (w.user_id == us.user_id
        && !(w.offeredSkills.any fun s => s.id == sk.id)) = true
    · rw [if_pos hc] at hvw
      have hany : (w.offeredSkills.any fun s => s.id == sk.id) = false := by
        rcases Bool.and_eq_true _ _ |>.mp hc with ⟨_, h2⟩
        exact Bool.not_eq_true' .. |>.mp h2
      exact Or.inr ⟨⟨sk.id, sk.name⟩, hany, hvw.symm⟩
    · rw [if_neg hc] at hvw
      exact Or.inl hvw.symm

/-- Every element left by the whole skill-attaching loop comes from an
accumulator element by repeatedly appending offered skills. -/
lemma mem_foldl_addUserSkillEntry (db : DB) (uss : List UserSkill)
    (acc : List UserProfileVM) (Q : UserProfileVM → Prop)
    (hQstep : ∀ w skr, (w.offeredSkills.any fun s => s.id == skr.id) = false →
      Q w → Q { w with offeredSkills := w.offeredSkills ++ [skr] })
    (hacc : ∀ v ∈ acc, Q v)
    (v : UserProfileVM) (hv : v ∈ uss.foldl (addUserSkillEntry db) acc) : Q v := by
  induction uss generalizing acc with
  | nil => exact hacc v hv
  | cons us t ih =>
    simp only [List.foldl_cons] at hv
    refine ih (addUserSkillEntry db acc us) ?_ hv
    intro w hw
    rcases mem_addUserSkillEntry db acc us w hw with ⟨w0, hw0, h | ⟨skr, hskr, h⟩⟩
    · exact h ▸ hacc w0 hw0
    · exact h ▸ hQstep w0 skr hskr (hacc w0 hw0)

/-- Claim C4.  Every record of the assembled search result set belongs to a
stored profile row whose public flag is set, and is never the searching
user's own profile — for every term and every database state. -/
theorem search_excludes_self_and_private (db : DB) (uid : Nat) (term : String)
    (v : UserProfileVM) (hv : v ∈ assembleSearch db uid term) :
    v.user_id ≠ uid ∧ ∃ p ∈ db.profiles, p.user_id = v.user_id ∧ p.is_public = true := by
  unfold assembleSearch at hv
  dsimp only at hv
  split at hv
  · simp at hv
  · split at hv
    · simp at hv
    · refine mem_foldl_addUserSkillEntry db _ _
        (fun v => v.user_id ≠ uid ∧
          ∃ p ∈ db.profiles, p.user_id = v.user_id ∧ p.is_public = true)
        (fun w skr _ hQ => hQ) ?_ v hv
      intro w hw
      rcases mem_foldl_addProfileEntry _ _ w hw with h | ⟨p, hp, hwp⟩
      · simp at h
      · have hpf := List.mem_filter.mp hp
        have hflags := hpf.2
        simp only [Bool.and_eq_true, beq_iff_eq, bne_iff_ne, ne_eq] at hflags
        subst hwp
        exact ⟨hflags.1.2, p, hpf.1, rfl, hflags.1.1⟩

/-- Concrete instance of `search_excludes_self_and_private`: user 10 searches
"guitar", finds user 20's public profile, which is neither private nor their
own. -/
theorem search_excludes_self_and_private_witness :
    ((⟨5, 20, "B", "", "", "", [⟨100, "Guitar"⟩]⟩ : UserProfileVM).user_id ≠ 10) ∧
    ∃ p ∈ (⟨[⟨5, 20, "B", "", "", "", true⟩], [⟨100, "Guitar", "", true⟩],
        [⟨1, 20, 100, SkillType.offered⟩], [], []⟩ : DB).profiles,
      p.user_id = (⟨5, 20, "B", "", "", "", [⟨100, "Guitar"⟩]⟩ : UserProfileVM).user_id ∧
      p.is_public = true :=
  search_excludes_self_and_private
    ⟨[⟨5, 20, "B", "", "", "", true⟩], [⟨100, "Guitar", "", true⟩],
      [⟨1, 20, 100, SkillType.offered⟩], [], []⟩
    10 "guitar" ⟨5, 20, "B", "", "", "", [⟨100, "Guitar"⟩]⟩ (by decide)

/-- Claim C6.  In every record of the assembled search result set the
offered-skills list carries pairwise distinct skill identifiers, even when the
underlying user_skills rows repeat a skill. -/
theorem search_offered_skills_nodup (db : DB) (uid : Nat) (term : String)
    (v : UserProfileVM) (hv : v ∈ assembleSearch db uid term) :
    (v.offeredSkills.map SkillRef.id).Nodup := by
  unfold assembleSearch at hv
  dsimp only at hv
  split at hv
  · simp at hv
  · split at hv
    · simp at hv
    · refine mem_foldl_addUserSkillEntry db _ _
        (fun v => (v.offeredSkills.map SkillRef.id).Nodup) ?_ ?_ v hv
      · intro w skr hany hQ
        simp only [List.map_append, List.map_cons, List.map_nil]
        refine hQ.append (List.nodup_singleton _) ?_
        intro a ha hb
        rcases List.mem_singleton.mp hb with rfl
        rcases List.mem_map.mp ha with ⟨s, hs, hsid⟩
        have := List.any_eq_false.mp hany s hs
        simp only [beq_iff_eq] at this
        exact this hsid
      · intro w hw
        rcases mem_foldl_addProfileEntry _ _ w hw with h | ⟨p, _, hwp⟩
        · simp at h
        · subst hwp
          simp [profileVM]

/-- Concrete instance of `search_offered_skills_nodup`: two user_skills rows
repeat the same offered skill, yet the assembled record lists it once. -/
theorem search_offered_skills_nodup_witness :
    ((⟨5, 20, "B", "", "", "", [⟨100, "Guitar"⟩]⟩ : UserProfileVM).offeredSkills.map
      SkillRef.id).Nodup :=
  search_offered_skills_nodup
    ⟨[⟨5, 20, "B", "", "", "", true⟩], [⟨100, "Guitar", "", true⟩],
      [⟨1, 20, 100, SkillType.offered⟩, ⟨2, 20, 100, SkillType.offered⟩], [], []⟩
    10 "guitar" ⟨5, 20, "B", "", "", "", [⟨100, "Guitar"⟩]⟩ (by decide)

/-- Claim C5 (amended).  A search with a non-blank term whose term matches no
skill name, or whose matching skills are offered by no user, sets the displayed
result set to empty; a search invoked with an empty or whitespace-only term,
however, returns before querying and leaves the previously displayed results
in place (it does not clear them). -/
theorem searchUsers_empty_cases (db : DB) (uid : Nat) (term : String)
    (prev : List UserProfileVM) :
    (isBlank term = true → searchUsers db uid term prev = prev) ∧
    (isBlank term = false →
      ((db.skills.filter fun s => ilikeContains s.name term) = [] ∨
        (db.user_skills.filter fun us =>
          us.skill_type == SkillType.offered &&
          ((db.skills.filter fun s => ilikeContains s.name term).map
            Skill.id).contains us.skill_id) = []) →
      searchUsers db uid term prev = []) := by
  constructor
  · intro h
    simp [searchUsers, h]
  · intro h hcase
    rw [searchUsers, if_neg (by simp [h])]
    unfold assembleSearch
    dsimp only
    rcases hcase with hm | hus
    · rw [hm]
      simp
    · by_cases hm2 : (db.skills.filter fun s => ilikeContains s.name term).isEmpty = true
      · rw [if_pos hm2]
      · rw [if_neg hm2, hus]
        simp

/-- Concrete instance of `searchUsers_empty_cases`: the term "zzz" matches no
stored skill and the result set becomes empty. -/
theorem searchUsers_empty_cases_witness :
    searchUsers ⟨[⟨5, 20, "B", "", "", "", true⟩], [⟨100, "Guitar", "", true⟩],
        [⟨1, 20, 100, SkillType.offered⟩], [], []⟩ 10 "zzz"
      [⟨5, 20, "B", "", "", "", []⟩] = [] :=
  (searchUsers_empty_cases
    ⟨[⟨5, 20, "B", "", "", "", true⟩], [⟨100, "Guitar", "", true⟩],
      [⟨1, 20, 100, SkillType.offered⟩], [], []⟩ 10 "zzz"
    [⟨5, 20, "B", "", "", "", []⟩]).2 (by decide) (Or.inl (by decide))

/-- Claim C5 is false as stated for blank terms: searchUsers returns before
clearing, so a search run with the empty term leaves the previously displayed
(non-empty) result set on screen instead of an empty one. -/
theorem blank_term_search_keeps_stale_results :
    searchUsers ⟨[], [], [], [], []⟩ 10 ""
        [⟨5, 20, "B", "", "", "", []⟩] = [⟨5, 20, "B", "", "", "", []⟩] ∧
    [(⟨5, 20, "B", "", "", "", []⟩ : UserProfileVM)] ≠ [] := by
  exact ⟨by decide, by decide⟩

/-! ## FeedbackPage -/

/-- A participant as shown in a swap view record:
`{ id: ..._id, ...profilesMap.get(..._id) }` — the spread fields are absent
when the profile row was not fetched. -/
structure ProfileRef where
  id : Nat
  display_name : Option String
  avatar_url : Option String
deriving DecidableEq, Repr

/-- The AcceptedSwapRequest view model of FeedbackPage. -/
structure SwapVM where
  id : Nat
  requester : ProfileRef
  recipient : ProfileRef
  offered_skill : Option SkillRef
  wanted_skill : Option SkillRef
  has_feedback : Bool
deriving DecidableEq, Repr

/-- Profile rows the backend returns to `uid`, per the SELECT policy
"Public profiles are viewable by everyone":
USING (is_public = true OR auth.uid() = user_id). -/
def visibleProfiles (db : DB) (uid : Nat) : List Profile :=
  db.profiles.filter fun p => p.is_public || p.user_id == uid

/-- The spread `{ id: userId, ...profilesMap.get(userId) }` over the fetched
profiles. -/
def lookupProfileRef (db : DB) (uid userId : Nat) : ProfileRef :=
  match (visibleProfiles db uid).find? fun p => p.user_id == userId with
  | some p => ⟨userId, some p.display_name, some p.avatar_url⟩
  | none => ⟨userId, none, none⟩

/-- The lookup `skillsMap.get(skillId)` over the fetched skills. -/
def lookupSkillRef (db : DB) (skillId : Nat) : Option SkillRef :=
  (db.skills.find? fun s => s.id == skillId).map fun s => ⟨s.id, s.name⟩

/-- One enriched swap view record of fetchAcceptedSwaps (the `data?.map`
body). -/
def swapVM (db : DB) (uid : Nat) (swap : SwapRequest) : SwapVM :=
  { id := swap.id
    requester := lookupProfileRef db uid swap.requester_id
    recipient := lookupProfileRef db uid swap.recipient_id
    offered_skill := lookupSkillRef db swap.offered_skill_id
    wanted_skill := lookupSkillRef db swap.wanted_skill_id
    has_feedback := db.feedback.any fun f =>
      f.swap_request_id == swap.id && f.reviewer_id == uid }

/-- FeedbackPage.fetchAcceptedSwaps: swap requests with status accepted in
which the current user participates, enriched with both participants, both
skills, and the flag `has_feedback` — whether a feedback row by this user
already references the swap. -/
def fetchAcceptedSwaps (db : DB) (uid : Nat) : List SwapVM :=
  (db.swap_requests.filter fun r =>
    r.status == Status.accepted &&
      (r.requester_id == uid || r.recipient_id == uid)).map (swapVM db uid)

/-- The pending-feedback list of FeedbackPage:
`acceptedSwaps.filter(swap => !swap.has_feedback)`. -/
def pendingFeedback (db : DB) (uid : Nat) : List SwapVM :=
  (fetchAcceptedSwaps db uid).filter fun swap => !swap.has_feedback

/-- Reviewee inference of the swap selector's onValueChange handler:
`swap.requester.id === user.id ? swap.recipient : swap.requester`. -/
def inferReviewee (uid : Nat) (swap : SwapVM) : Nat :=
  if swap.requester.id == uid then swap.recipient.id else swap.requester.id

/-- The id field a profile-spread record carries is always the joined key. -/
lemma lookupProfileRef_id (db : DB) (uid x : Nat) :
    (lookupProfileRef db uid x).id = x := by
  cases hf : (visibleProfiles db uid).find? fun p => p.user_id == x with
  | none => simp [lookupProfileRef, hf]
  | some p => simp [lookupProfileRef, hf]

/-- A swap whose stored row is accepted, involves `uid`, and has no feedback
row by `uid` produces a view record in the pending-feedback list. -/
lemma swapVM_mem_pendingFeedback (db : DB) (uid : Nat) (s : SwapRequest)
    (hsdb : s ∈ db.swap_requests) (hacc : s.status = Status.accepted)
    (hpart : s.requester_id = uid ∨ s.recipient_id = uid)
    (hnone : ∀ f ∈ db.feedback, ¬(f.swap_request_id = s.id ∧ f.reviewer_id = uid)) :
    swapVM db uid s ∈ pendingFeedback db uid := by
  have hany : (db.feedback.any fun f =>
      f.swap_request_id == s.id && f.reviewer_id == uid) = false := by
    rw [List.any_eq_false]
    intro f hf
    simp only [Bool.and_eq_true, beq_iff_eq, not_and]
    exact fun h1 h2 => hnone f hf ⟨h1, h2⟩
  refine List.mem_filter.mpr ⟨List.mem_map.mpr ⟨s, List.mem_filter.mpr ⟨hsdb, ?_⟩, rfl⟩, ?_⟩
  · simp only [Bool.and_eq_true, Bool.or_eq_true, beq_iff_eq]
    exact ⟨hacc, hpart⟩
  · simp only [swapVM, hany, Bool.not_false]

/-- Claim C7.  The pending-feedback list contains exactly the swap requests
that are accepted, involve the current user, and carry no feedback row by that
user; and for each such swap its view record infers the reviewee as the other
participant — the recipient when the user is the requester, else the
requester. -/
theorem pendingFeedback_exact_and_reviewee (db : DB) (uid sid : Nat) :
    ((∃ v ∈ pendingFeedback db uid, v.id = sid) ↔
      ∃ s ∈ db.swap_requests, s.id = sid ∧ s.status = Status.accepted ∧
        (s.requester_id = uid ∨ s.recipient_id = uid) ∧
        ∀ f ∈ db.feedback, ¬(f.swap_request_id = s.id ∧ f.reviewer_id = uid)) ∧
    (∀ s ∈ db.swap_requests, s.status = Status.accepted →
      (s.requester_id = uid ∨ s.recipient_id = uid) →
      (∀ f ∈ db.feedback, ¬(f.swap_request_id = s.id ∧ f.reviewer_id = uid)) →
      ∃ v ∈ pendingFeedback db uid, v.id = s.id ∧
        inferReviewee uid v =
          (if s.requester_id = uid then s.recipient_id else s.requester_id)) := by
  have hinf : ∀ s : SwapRequest, inferReviewee uid (swapVM db uid s) =
      (if s.requester_id = uid then s.recipient_id else s.requester_id) := by
    intro s
    simp only [inferReviewee, swapVM, lookupProfileRef_id, beq_iff_eq]
  constructor
  · constructor
    · rintro ⟨v, hv, rfl⟩
      rcases List.mem_filter.mp hv with ⟨hmap, hnf⟩
      rcases List.mem_map.mp hmap with ⟨s, hsmem, rfl⟩
      rcases List.mem_filter.mp hsmem with ⟨hsdb, hcond⟩
      simp only [Bool.and_eq_true, Bool.or_eq_true, beq_iff_eq] at hcond
      have hany : (db.feedback.any fun f =>
          f.swap_request_id == s.id && f.reviewer_id == uid) = false := by
        have := hnf
        simp only [swapVM, Bool.not_eq_true'] at this
        exact this
      refine ⟨s, hsdb, rfl, hcond.1, hcond.2, ?_⟩
      intro f hf hcontra
      have := List.any_eq_false.mp hany f hf
      simp only [Bool.and_eq_true, beq_iff_eq, not_and] at this
      exact this hcontra.1 hcontra.2
    · rintro ⟨s, hsdb, hsid, hacc, hpart, hnone⟩
      exact ⟨swapVM db uid s,
        swapVM_mem_pendingFeedback db uid s hsdb hacc hpart hnone, hsid⟩
  · intro s hsdb hacc hpart hnone
    exact ⟨swapVM db uid s,
      swapVM_mem_pendingFeedback db uid s hsdb hacc hpart hnone, rfl, hinf s⟩

/-- Concrete instance of `pendingFeedback_exact_and_reviewee`: user 10 has one
accepted swap with user 20 and no feedback yet; it is pending feedback and the
inferred reviewee is user 20. -/
theorem pendingFeedback_exact_and_reviewee_witness :
    ∃ v ∈ pendingFeedback
      ⟨[], [], [], [⟨1, 10, 20, 100, 101, "m", Status.accepted⟩], []⟩ 10,
      v.id = 1 ∧ inferReviewee 10 v = 20 := by
  have h := (pendingFeedback_exact_and_reviewee
      ⟨[], [], [], [⟨1, 10, 20, 100, 101, "m", Status.accepted⟩], []⟩ 10 1).2
    ⟨1, 10, 20, 100, 101, "m", Status.accepted⟩ (by decide) rfl (Or.inl rfl)
    (by intro f hf; simp at hf)
  rcases h with ⟨v, hv, h1, h2⟩
  exact ⟨v, hv, h1, by rw [h2]; decide⟩

/-! ## SkillsPage -/

/-- The Skill interface of SkillsPage (fields selected by its queries). -/
structure SkillVM where
  id : Nat
  name : String
  category : String
deriving DecidableEq, Repr

/-- The UserSkill view model of SkillsPage. -/
structure UserSkillVM where
  id : Nat
  skill : SkillVM
  skill_type : SkillType
deriving DecidableEq, Repr

/-- SkillsPage component state touched by addSkill.  `allSkills` is the
locally loaded list of approved skills (fetchAllSkills filters
is_approved = true). -/
structure SkillsPageState where
  newSkillName : String
  userSkills : List UserSkillVM
  allSkills : List Skill
deriving DecidableEq, Repr

/-- Backend effect of an INSERT into `skills` (name TEXT NOT NULL UNIQUE;
policy "Authenticated users can create skills" admits any authenticated user).
`fail` injects an exogenous transport failure of this call. -/
def insertSkill (db : DB) (row : Skill) (fail : Bool) : Except String DB :=
  if fail then .error "network error"
  else if db.skills.any fun s => s.name == row.name then
    .error "duplicate key value violates unique constraint"
  else .ok { db with skills := db.skills ++ [row] }

/-- Backend effect of an INSERT into `user_skills`
(UNIQUE(user_id, skill_id, skill_type); policy "Users can manage their own
skills": auth.uid() = user_id).  `fail` injects an exogenous transport
failure of this call. -/
def insertUserSkill (db : DB) (uid : Nat) (row : UserSkill) (fail : Bool) :
    Except String DB :=
  if fail then .error "network error"
  else if uid != row.user_id then
    .error "new row violates row-level security policy"
  else if db.user_skills.any fun us =>
      us.user_id == row.user_id && us.skill_id == row.skill_id
        && us.skill_type == row.skill_type then
    .error "duplicate key value violates unique constraint"
  else .ok { db with user_skills := db.user_skills ++ [row] }

/-- SkillsPage.addSkill, returning the new stored state, the new component
state, and whether the catch branch ran (an error toast with the backend
message).  Mirrors the source: blank input returns untouched; the entered
name is matched case-insensitively against the loaded `allSkills`; on a miss
the trimmed name is inserted into `skills` (category null, approval default)
and `setAllSkills` immediately appends the created row; then the
`user_skills` row is inserted and on success appended to `userSkills` with
the input cleared.  A thrown step leaves the remaining steps unrun.
`newSkillId` / `newUserSkillId` stand for the generated keys; `fail1` /
`fail2` inject transport failures of the two backend calls. -/
def addSkill (db : DB) (st : SkillsPageState) (uid : Nat) (skillType : SkillType)
    (newSkillId newUserSkillId : Nat) (fail1 fail2 : Bool) :
    DB × SkillsPageState × Bool :=
  if isBlank st.newSkillName then (db, st, false)
  else
    match st.allSkills.find? fun s => lowerStr s.name == lowerStr st.newSkillName with
    | some skill =>
        match insertUserSkill db uid ⟨newUserSkillId, uid, skill.id, skillType⟩ fail2 with
        | .error _ => (db, st, true)
        | .ok db2 =>
            (db2, { st with
                      newSkillName := ""
                      userSkills := st.userSkills ++
                        [⟨newUserSkillId, ⟨skill.id, skill.name, skill.category⟩,
                          skillType⟩] }, false)
    | none =>
        match insertSkill db ⟨newSkillId, strTrim st.newSkillName, "", true⟩ fail1 with
        | .error _ => (db, st, true)
        | .ok db1 =>
            match insertUserSkill db1 uid ⟨newUserSkillId, uid, newSkillId, skillType⟩ fail2 with
            | .error _ =>
                (db1, { st with allSkills := st.allSkills ++
                  [⟨newSkillId, strTrim st.newSkillName, "", true⟩] }, true)
            | .ok db2 =>
                (db2, { newSkillName := ""
                        userSkills := st.userSkills ++
                          [⟨newUserSkillId, ⟨newSkillId, strTrim st.newSkillName, ""⟩,
                            skillType⟩]
                        allSkills := st.allSkills ++
                          [⟨newSkillId, strTrim st.newSkillName, "", true⟩] }, false)

/-! ## SwapRequestsPage component state -/

/-- The SwapRequest view model of SwapRequestsPage. -/
structure SwapReqView where
  id : Nat
  message : String
  status : Status
  created_at : Nat
  requester : ProfileRef
  recipient : ProfileRef
  offered_skill : SkillRef
  wanted_skill : SkillRef
deriving DecidableEq, Repr

/-- The two request lists SwapRequestsPage renders. -/
structure SwapPageState where
  sentRequests : List SwapReqView
  receivedRequests : List SwapReqView
deriving DecidableEq, Repr

/-- The `setReceivedRequests` updater of updateRequestStatus:
`prev.map(req => req.id === requestId ? { ...req, status } : req)`. -/
def updateLocalReceived (reqId : Nat) (st : Status) (prev : List SwapReqView) :
    List SwapReqView :=
  prev.map fun req => if req.id == reqId then { req with status := st } else req

/-- SwapRequestsPage.updateRequestStatus: the backend update then, only on
success, the local received-requests patch; a failed call is caught, surfaces
the backend message, and runs no setter. -/
def updateRequestStatus (db : DB) (ps : SwapPageState) (uid reqId : Nat)
    (st : Status) (fail : Bool) : DB × SwapPageState × Bool :=
  if fail then (db, ps, true)
  else (updateSwapStatus db uid reqId st,
        { ps with receivedRequests := updateLocalReceived reqId st ps.receivedRequests },
        false)

/-- SwapRequestsPage.deleteRequest: the backend delete then, only on success,
`setSentRequests(prev => prev.filter(req => req.id !== requestId))`. -/
def deleteRequest (db : DB) (ps : SwapPageState) (uid reqId : Nat) (fail : Bool) :
    DB × SwapPageState × Bool :=
  if fail then (db, ps, true)
  else (deleteSwapRequest db uid reqId,
        { ps with sentRequests := ps.sentRequests.filter fun req => !(req.id == reqId) },
        false)

/-- The feedback form state of FeedbackPage (empty selections as none). -/
structure FeedbackForm where
  swapRequestId : Nat
  revieweeId : Option Nat
  rating : Option Nat
  comment : String
deriving DecidableEq, Repr

/-- FeedbackPage.submitFeedback as a transformer of the stored state and the
form: an incomplete form only shows a validation toast; a complete form
inserts one feedback row and clears the form on success; a failed call is
caught, surfaces the backend message, and changes nothing locally.  The
returned flag records that a destructive toast (validation or error) was
shown. -/
def submitFeedbackClient (db : DB) (uid newId : Nat) (form : FeedbackForm)
    (fail : Bool) : DB × FeedbackForm × Bool :=
  match form.rating, form.revieweeId with
  | some rt, some rev =>
      if fail then (db, form, true)
      else
        match insertFeedback db uid
            ⟨newId, form.swapRequestId, uid, rev, rt, form.comment⟩ with
        | .error _ => (db, form, true)
        | .ok db2 => (db2, ⟨0, none, none, ""⟩, false)
  | _, _ => (db, form, true)

/-- A successful user_skills insert appends exactly its row to user_skills
and touches nothing else. -/
lemma insertUserSkill_ok_eq (db : DB) (uid : Nat) (row : UserSkill)
    (fail : Bool) (db2 : DB) (h : insertUserSkill db uid row fail = .ok db2) :
    db2 = { db with user_skills := db.user_skills ++ [row] } := by
  unfold insertUserSkill at h
  split at h
  · cases h
  · split at h
    · cases h
    · split at h
      · cases h
      · cases h
        rfl

/-- A successful user_skills insert never touches the skills table. -/
lemma insertUserSkill_ok_skills (db : DB) (uid : Nat) (row : UserSkill)
    (fail : Bool) (db2 : DB) (h : insertUserSkill db uid row fail = .ok db2) :
    db2.skills = db.skills := by
  rw [insertUserSkill_ok_eq db uid row fail db2 h]

/-- Claim C8 (amended).  With no transport failure injected: when the loaded
approved-skills list yields a case-insensitive match for the entered name,
addSkill attempts no skills insert — the skills table is unchanged and, when
the step does not error, the matching row is the one reused: the new
user_skills row and the new view entry reference precisely that row.  When
the loaded list yields no such match, addSkill inserts the trimmed name into
the skills table — appending exactly that new row if no stored skill already
bears the exact trimmed name, and otherwise (a stored exact-name row missing
from the loaded list) failing the name-uniqueness constraint, inserting
nothing, leaving stored and component state unchanged and surfacing the
error. -/
theorem addSkill_reuse_or_create (db : DB) (st : SkillsPageState) (uid : Nat)
    (ty : SkillType) (nsid nusid : Nat) (hnb : isBlank st.newSkillName = false) :
    (∀ skill : Skill,
      (st.allSkills.find? fun s =>
        lowerStr s.name == lowerStr st.newSkillName) = some skill →
      (addSkill db st uid ty nsid nusid false false).1.skills = db.skills ∧
      ((addSkill db st uid ty nsid nusid false false).2.2 = false →
        (addSkill db st uid ty nsid nusid false false).1.user_skills =
          db.user_skills ++ [⟨nusid, uid, skill.id, ty⟩] ∧
        (addSkill db st uid ty nsid nusid false false).2.1.userSkills =
          st.userSkills ++
            [⟨nusid, ⟨skill.id, skill.name, skill.category⟩, ty⟩])) ∧
    ((∀ s ∈ st.allSkills, lowerStr s.name ≠ lowerStr st.newSkillName) →
      ((∀ s ∈ db.skills, s.name ≠ strTrim st.newSkillName) →
        (addSkill db st uid ty nsid nusid false false).1.skills =
          db.skills ++ [⟨nsid, strTrim st.newSkillName, "", true⟩]) ∧
      ((∃ s ∈ db.skills, s.name = strTrim st.newSkillName) →
        addSkill db st uid ty nsid nusid false false = (db, st, true))) := by
  constructor
  · intro skill hf
    rcases h2 : insertUserSkill db uid ⟨nusid, uid, skill.id, ty⟩ false with e | db2
    · simp [addSkill, hnb, hf, h2]
    · have he := insertUserSkill_ok_eq db uid ⟨nusid, uid, skill.id, ty⟩ false db2 h2
      subst he
      simp [addSkill, hnb, hf, h2]
  · intro hnex
    have hnone : (st.allSkills.find? fun s =>
        lowerStr s.name == lowerStr st.newSkillName) = none := by
      rw [List.find?_eq_none]
      intro s hs
      simp only [beq_iff_eq]
      exact hnex s hs
    constructor
    · intro hname
      have hins : insertSkill db ⟨nsid, strTrim st.newSkillName, "", true⟩ false =
          .ok { db with skills := db.skills ++ [⟨nsid, strTrim st.newSkillName, "", true⟩] } := by
        have hany : (db.skills.any fun s =>
            s.name == (strTrim st.newSkillName)) = false := by
          rw [List.any_eq_false]
          intro s hs
          simp only [beq_iff_eq]
          exact hname s hs
        simp [insertSkill, hany]
      rcases h2 : insertUserSkill
          { db with skills := db.skills ++ [⟨nsid, strTrim st.newSkillName, "", true⟩] }
          uid ⟨nusid, uid, nsid, ty⟩ false with e | db2
      · simp [addSkill, hnb, hnone, hins, h2]
      · simp [addSkill, hnb, hnone, hins, h2]
        exact insertUserSkill_ok_skills _ uid ⟨nusid, uid, nsid, ty⟩ false db2 h2
    · rintro ⟨s, hs, hsname⟩
      have hany : (db.skills.any fun s =>
          s.name == (strTrim st.newSkillName)) = true := by
        rw [List.any_eq_true]
        exact ⟨s, hs, by simp [hsname]⟩
      have hins : insertSkill db ⟨nsid, strTrim st.newSkillName, "", true⟩ false =
          .error "duplicate key value violates unique constraint" := by
        simp [insertSkill, hany]
      simp [addSkill, hnb, hnone, hins]

/-- Concrete instance of `addSkill_reuse_or_create`: with "Guitar" already
loaded, entering "guitar" leaves the skills table unchanged and links the
existing row 100 in both the stored user_skills and the view state. -/
theorem addSkill_reuse_or_create_witness :
    (addSkill ⟨[], [⟨100, "Guitar", "", true⟩], [], [], []⟩
      ⟨"guitar", [], [⟨100, "Guitar", "", true⟩]⟩ 7 SkillType.offered
      50 60 false false).1.skills = [⟨100, "Guitar", "", true⟩] ∧
    (addSkill ⟨[], [⟨100, "Guitar", "", true⟩], [], [], []⟩
      ⟨"guitar", [], [⟨100, "Guitar", "", true⟩]⟩ 7 SkillType.offered
      50 60 false false).1.user_skills = [⟨60, 7, 100, SkillType.offered⟩] ∧
    (addSkill ⟨[], [⟨100, "Guitar", "", true⟩], [], [], []⟩
      ⟨"guitar", [], [⟨100, "Guitar", "", true⟩]⟩ 7 SkillType.offered
      50 60 false false).2.1.userSkills =
      [⟨60, ⟨100, "Guitar", ""⟩, SkillType.offered⟩] := by
  have h := (addSkill_reuse_or_create ⟨[], [⟨100, "Guitar", "", true⟩], [], [], []⟩
    ⟨"guitar", [], [⟨100, "Guitar", "", true⟩]⟩ 7 SkillType.offered
    50 60 (by decide)).1 ⟨100, "Guitar", "", true⟩ (by decide)
  rcases h with ⟨h1, h2⟩
  have h3 := h2 (by decide)
  exact ⟨h1, by rw [h3.1]; rfl, by rw [h3.2]; rfl⟩

/-- Claim C8 is false as stated: with skill "Guitar" stored and loaded, the
entered name "guitar" is NOT present case-sensitively, yet addSkill inserts
no new skills row — the client matched it case-insensitively against the
loaded list and reused the existing row (the user_skills row references id
100). -/
theorem addSkill_case_insensitive_counterexample :
    (¬∃ s ∈ ([⟨100, "Guitar", "", true⟩] : List Skill), s.name = "guitar") ∧
    (addSkill ⟨[], [⟨100, "Guitar", "", true⟩], [], [], []⟩
      ⟨"guitar", [], [⟨100, "Guitar", "", true⟩]⟩ 7 SkillType.offered
      50 60 false false).1.skills = [⟨100, "Guitar", "", true⟩] ∧
    (addSkill ⟨[], [⟨100, "Guitar", "", true⟩], [], [], []⟩
      ⟨"guitar", [], [⟨100, "Guitar", "", true⟩]⟩ 7 SkillType.offered
      50 60 false false).1.user_skills.map UserSkill.skill_id = [100] ∧
    (addSkill ⟨[], [⟨100, "Guitar", "", true⟩], [], [], []⟩
      ⟨"guitar", [], [⟨100, "Guitar", "", true⟩]⟩ 7 SkillType.offered
      50 60 false false).2.2 = false := by
  refine ⟨by decide, by decide, by decide, by decide⟩

/-- Claim C9 (amended).  For the single-call mutations — status update,
deletion, feedback submission — a failed backend call leaves the stored and
component state exactly as before and surfaces an error; addSkill likewise
when its first backend call fails (or when the failing user-skill insert
follows a reused, not newly created, skill); but see
`addSkill_partial_allSkills` for the one partial-application exception. -/
theorem failed_mutation_leaves_state (db : DB) (ps : SwapPageState)
    (uid reqId newId : Nat) (st : Status) (form : FeedbackForm)
    (sps : SkillsPageState) (ty : SkillType) (nsid nusid : Nat) (rt rev : Nat)
    (hr : form.rating = some rt) (hv : form.revieweeId = some rev)
    (hnb : isBlank sps.newSkillName = false) :
    updateRequestStatus db ps uid reqId st true = (db, ps, true) ∧
    deleteRequest db ps uid reqId true = (db, ps, true) ∧
    submitFeedbackClient db uid newId form true = (db, form, true) ∧
    addSkill db sps uid ty nsid nusid true true = (db, sps, true) := by
  refine ⟨rfl, rfl, ?_, ?_⟩
  · simp [submitFeedbackClient, hr, hv]
  · rcases hf : sps.allSkills.find? fun s =>
        lowerStr s.name == lowerStr sps.newSkillName with _ | skill <;>
      simp [addSkill, hnb, hf, insertUserSkill, insertSkill]

/-- Concrete instance of `failed_mutation_leaves_state` at a populated
state. -/
theorem failed_mutation_leaves_state_witness :
    updateRequestStatus ⟨[], [], [], [⟨1, 10, 20, 100, 101, "m", Status.pending⟩], []⟩
      ⟨[], []⟩ 20 1 Status.accepted true =
      (⟨[], [], [], [⟨1, 10, 20, 100, 101, "m", Status.pending⟩], []⟩, ⟨[], []⟩, true) ∧
    deleteRequest ⟨[], [], [], [⟨1, 10, 20, 100, 101, "m", Status.pending⟩], []⟩
      ⟨[], []⟩ 20 1 true =
      (⟨[], [], [], [⟨1, 10, 20, 100, 101, "m", Status.pending⟩], []⟩, ⟨[], []⟩, true) ∧
    submitFeedbackClient ⟨[], [], [], [⟨1, 10, 20, 100, 101, "m", Status.pending⟩], []⟩
      10 7 ⟨1, some 20, some 5, "c"⟩ true =
      (⟨[], [], [], [⟨1, 10, 20, 100, 101, "m", Status.pending⟩], []⟩,
        ⟨1, some 20, some 5, "c"⟩, true) ∧
    addSkill ⟨[], [], [], [⟨1, 10, 20, 100, 101, "m", Status.pending⟩], []⟩
      ⟨"Guitar", [], []⟩ 10 SkillType.offered 50 60 true true =
      (⟨[], [], [], [⟨1, 10, 20, 100, 101, "m", Status.pending⟩], []⟩,
        ⟨"Guitar", [], []⟩, true) :=
  failed_mutation_leaves_state
    ⟨[], [], [], [⟨1, 10, 20, 100, 101, "m", Status.pending⟩], []⟩ ⟨[], []⟩
    10 1 7 Status.accepted ⟨1, some 20, some 5, "c"⟩ ⟨"Guitar", [], []⟩
    SkillType.offered 50 60 5 20 rfl rfl (by decide)

/-- Claim C9 is false as stated: when addSkill creates a new skill and the
subsequent user_skills insert fails, the error toast is shown but the
in-memory allSkills list has already been extended with the created skill —
the failed mutation was partially applied to view state. -/
theorem addSkill_partial_allSkills :
    (addSkill ⟨[], [], [], [], []⟩ ⟨"Guitar", [], []⟩ 7 SkillType.offered
      50 60 false true).2.2 = true ∧
    (addSkill ⟨[], [], [], [], []⟩ ⟨"Guitar", [], []⟩ 7 SkillType.offered
      50 60 false true).2.1.allSkills = [⟨50, "Guitar", "", true⟩] ∧
    (⟨"Guitar", [], []⟩ : SkillsPageState).allSkills = [] := by
  refine ⟨by decide, by decide, by decide⟩

/-- Claim C10.  The success path of updateRequestStatus leaves the
sent-requests list untouched and patches only the received entry whose id is
the updated request's: that entry changes in its status field alone, and
every entry with a different id is unchanged. -/
theorem updateRequestStatus_local_frame (db : DB) (ps : SwapPageState)
    (uid reqId : Nat) (st : Status)
    (hst : st = Status.accepted ∨ st = Status.rejected)
    (i : Nat) (r : SwapReqView) (hr : ps.receivedRequests[i]? = some r) :
    (updateRequestStatus db ps uid reqId st false).2.2 = false ∧
    (updateRequestStatus db ps uid reqId st false).2.1.sentRequests =
      ps.sentRequests ∧
    (updateRequestStatus db ps uid reqId st false).2.1.receivedRequests.length =
      ps.receivedRequests.length ∧
    (r.id ≠ reqId →
      (updateRequestStatus db ps uid reqId st false).2.1.receivedRequests[i]? =
        some r) ∧
    (r.id = reqId →
      (updateRequestStatus db ps uid reqId st false).2.1.receivedRequests[i]? =
        some { r with status := st }) := by
  have hred : updateRequestStatus db ps uid reqId st false =
      (updateSwapStatus db uid reqId st,
        { ps with receivedRequests := updateLocalReceived reqId st ps.receivedRequests },
        false) := rfl
  rw [hred]
  refine ⟨rfl, rfl, ?_, ?_, ?_⟩
  · simp [updateLocalReceived]
  · intro hne
    simp only [updateLocalReceived, List.getElem?_map, hr, Option.map_some']
    rw [if_neg (by simp [hne])]
  · intro heq
    simp only [updateLocalReceived, List.getElem?_map, hr, Option.map_some']
    rw [if_pos (by simp [heq])]

/-- Concrete instance of `updateRequestStatus_local_frame`: accepting request
1 patches the single received entry's status and nothing else. -/
theorem updateRequestStatus_local_frame_witness :
    (updateRequestStatus ⟨[], [], [], [⟨1, 10, 20, 100, 101, "m", Status.pending⟩], []⟩
      ⟨[], [⟨1, "m", Status.pending, 3, ⟨10, none, none⟩, ⟨20, none, none⟩,
        ⟨100, "G"⟩, ⟨101, "S"⟩⟩]⟩ 20 1 Status.accepted false).2.1.receivedRequests[0]? =
      some ⟨1, "m", Status.accepted, 3, ⟨10, none, none⟩, ⟨20, none, none⟩,
        ⟨100, "G"⟩, ⟨101, "S"⟩⟩ :=
  (updateRequestStatus_local_frame
    ⟨[], [], [], [⟨1, 10, 20, 100, 101, "m", Status.pending⟩], []⟩
    ⟨[], [⟨1, "m", Status.pending, 3, ⟨10, none, none⟩, ⟨20, none, none⟩,
      ⟨100, "G"⟩, ⟨101, "S"⟩⟩]⟩ 20 1 Status.accepted (Or.inl rfl) 0
    ⟨1, "m", Status.pending, 3, ⟨10, none, none⟩, ⟨20, none, none⟩,
      ⟨100, "G"⟩, ⟨101, "S"⟩⟩ rfl).2.2.2.2 rfl

end ExchangeCraft
